import Mathlib

/-!
Verification of the sleep-metric aggregation engine of the garmin-sleep
repository (source: src/unnamed/part_002, the live route component).

Shallow embedding conventions:
* JS numbers carrying sample values, durations and percentages are modelled
  by the rationals; the one square root (the standard deviation of the
  simple-statistics library) lands in the reals.
* A JS value that may be undefined is an Option; the undefined value is none.
* Luxon DateTime values are modelled two ways, matching how the source uses
  them: the bucket-key functions read calendar fields, so they take a
  calendar date (LDate); the range walk and the record timeline only use
  ordering, day stepping and epoch arithmetic, so there a DateTime is an
  integer day ordinal.
* JS objects built by Object.groupBy and reduce are association lists in
  first-insertion order.
-/

namespace GarminSleep

/-! ## Calendar model (embeds the Luxon DateTime fields the groupers read) -/

/-- Gregorian leap-year rule. -/
def isLeapYear (y : Nat) : Bool :=
  (y % 4 == 0 && y % 100 != 0) || y % 400 == 0

/-- Length of a month in the Gregorian calendar. -/
def daysInMonth (y m : Nat) : Nat :=
  if m = 2 then (if isLeapYear y then 29 else 28)
  else if m = 4 || m = 6 || m = 9 || m = 11 then 30
  else 31

/-- Day-of-year ordinal (Jan 1 is 1). -/
def ordinalDay (y m d : Nat) : Nat :=
  (((List.range (m - 1)).map (fun i => daysInMonth y (i + 1))).sum) + d

/-- Rata Die day number: day 1 is 0001-01-01, which was a Monday. -/
def rataDie (y m d : Nat) : Nat :=
  365 * (y - 1) + (y - 1) / 4 - (y - 1) / 100 + (y - 1) / 400 + ordinalDay y m d

/-- ISO weekday: Monday = 1 .. Sunday = 7. -/
def isoWeekday (y m d : Nat) : Nat :=
  (rataDie y m d - 1) % 7 + 1

/-- Helper for the ISO 53-week-year rule: weekday of Dec 31 of year y. -/
def isoP (y : Nat) : Nat :=
  (y + y / 4 - y / 100 + y / 400) % 7

/-- Number of ISO weeks in year y (52 or 53). -/
def isoWeeksInYear (y : Nat) : Nat :=
  if isoP y = 4 || isoP (y - 1) = 3 then 53 else 52

/-- A calendar date, as the Luxon DateTime fields year / month / day. -/
structure LDate where
  year : Nat
  month : Nat
  day : Nat
deriving DecidableEq

/-- ISO week number and ISO week-year of a date, as a pair
(weekNumber, weekYear).  This embeds the computation behind the Luxon
fields dt.weekNumber and dt.weekYear (Luxon implements ISO 8601 weeks). -/
def isoWeekPair (dt : LDate) : Nat × Nat :=
  let ord := ordinalDay dt.year dt.month dt.day
  let wd := isoWeekday dt.year dt.month dt.day
  let w := (ord + 10 - wd) / 7
  if w = 0 then (isoWeeksInYear (dt.year - 1), dt.year - 1)
  else if isoWeeksInYear dt.year < w then (1, dt.year + 1)
  else (w, dt.year)

/-- Luxon dt.weekNumber: the ISO week number of the date. -/
def LDate.weekNumber (dt : LDate) : Nat := (isoWeekPair dt).1

/-- Luxon dt.weekYear: the ISO week-year of the date. -/
def LDate.weekYear (dt : LDate) : Nat := (isoWeekPair dt).2

/-! ## Bucket-key functions (the groupers object of the source) -/

namespace groupers

/-- Source: day: (dt) => dt.year ++ "-" ++ dt.month ++ "-" ++ dt.day. -/
def day (dt : LDate) : String :=
  toString dt.year ++ "-" ++ toString dt.month ++ "-" ++ toString dt.day

/-- Source: week: (dt) => dt.year ++ "-w-" ++ dt.weekNumber.  Note that the
source reads dt.year (the calendar year), not dt.weekYear. -/
def week (dt : LDate) : String :=
  toString dt.year ++ "-w-" ++ toString dt.weekNumber

/-- Source: fortnight: (dt) => dt.year ++ "-2w-" ++ Math.ceil(dt.weekNumber / 2). -/
def fortnight (dt : LDate) : String :=
  toString dt.year ++ "-2w-" ++ toString ((dt.weekNumber + 1) / 2)

/-- Source: month: (dt) => dt.year ++ "-m-" ++ dt.month. -/
def month (dt : LDate) : String :=
  toString dt.year ++ "-m-" ++ toString dt.month

/-- Source: the 3months grouper, dt.year ++ "-3m-" ++ Math.ceil(dt.month / 3). -/
def threeMonths (dt : LDate) : String :=
  toString dt.year ++ "-3m-" ++ toString ((dt.month + 2) / 3)

/-- Source: the 6months grouper, dt.year ++ "-6m-" ++ Math.ceil(dt.month / 6). -/
def sixMonths (dt : LDate) : String :=
  toString dt.year ++ "-6m-" ++ toString ((dt.month + 5) / 6)

/-- Source: year: (dt) => toString dt.year. -/
def year (dt : LDate) : String := toString dt.year

/-- Source: all: () => the constant key "all". -/
def allKey (_dt : LDate) : String := "all"

end groupers

/-- Modelled from the spec: the week bucket key of shape
weekYear-w-weekNumber, built from the ISO week-year (the spec table row for
the week granularity).  The source has no such function; it is stated here
only to compare the spec requirement with the key the source produces. -/
def specWeekKey (dt : LDate) : String :=
  toString dt.weekYear ++ "-w-" ++ toString dt.weekNumber

/-! ## Statistics engine (embeds the simple-statistics library functions the
source imports, then the makeStats descriptor of the source) -/

/-- Embeds mean of simple-statistics: the sum divided by the length.  The
library throws on the empty sample; every call in the source is guarded by
a length check, so the junk value at length 0 is never reached. -/
def ssMean (x : List ℚ) : ℚ := x.sum / (x.length : ℚ)

/-- Embeds variance of simple-statistics: the mean squared deviation with
denominator n (population convention).  Unreachable for the empty sample. -/
def ssVariance (x : List ℚ) : ℚ :=
  ((x.map (fun v => (v - ssMean x) ^ 2)).sum) / (x.length : ℚ)

/-- Embeds standardDeviation of simple-statistics: 0 for a one-element
sample, otherwise the square root of the population variance. -/
noncomputable def ssStandardDeviation (x : List ℚ) : ℝ :=
  if x.length = 1 then 0 else Real.sqrt ((ssVariance x : ℚ) : ℝ)

/-- Embeds quantileSorted of simple-statistics on an already sorted list.
The source throws for an empty sample and for p outside 0..1; makeStats
guards the empty sample and passes only the constants 0, 0.01, 0.1, 0.25,
0.5, 0.75, 0.9, 0.99, 1, so those branches are unreachable (the empty case
is modelled by the junk value 0). -/
def ssQuantileSorted (x : List ℚ) (p : ℚ) : ℚ :=
  let idx : ℚ := (x.length : ℚ) * p
  if x.length = 0 then 0
  else if p = 1 then x.getD (x.length - 1) 0
  else if p = 0 then x.getD 0 0
  else if idx.den ≠ 1 then x.getD ((⌈idx⌉ - 1).toNat) 0
  else if x.length % 2 = 0 then
    (x.getD (idx.num.toNat - 1) 0 + x.getD idx.num.toNat 0) / 2
  else x.getD idx.num.toNat 0

/-- Embeds quantile of simple-statistics: selects on a sorted copy of the
sample, which agrees with quantileSorted applied to the sorted list. -/
def ssQuantile (x : List ℚ) (p : ℚ) : ℚ :=
  ssQuantileSorted (List.insertionSort (· ≤ ·) x) p

/-- The descriptor makeStats builds: nine percentiles, mean and sd.  Every
field of the JS object may hold undefined (the absent marker), hence the
Option; sd is real-valued because the library standard deviation takes a
square root. -/
structure StatsDescriptor where
  p0 : Option ℚ
  p1 : Option ℚ
  p10 : Option ℚ
  p25 : Option ℚ
  p50 : Option ℚ
  p75 : Option ℚ
  p90 : Option ℚ
  p99 : Option ℚ
  p100 : Option ℚ
  mean : Option ℚ
  sd : Option ℝ

/-- Embeds makeStats of the source: each percentile field and the mean are
data[0] (undefined, the absent marker) when the sample is empty and the
library statistic otherwise; sd is 0 when the sample is empty and the
library standard deviation otherwise, so sd is always a number. -/
noncomputable def makeStats (data : List ℚ) : StatsDescriptor :=
  { p0 := if data.length = 0 then none else some (ssQuantile data 0)
  , p1 := if data.length = 0 then none else some (ssQuantile data 0.01)
  , p10 := if data.length = 0 then none else some (ssQuantile data 0.1)
  , p25 := if data.length = 0 then none else some (ssQuantile data 0.25)
  , p50 := if data.length = 0 then none else some (ssQuantile data 0.5)
  , p75 := if data.length = 0 then none else some (ssQuantile data 0.75)
  , p90 := if data.length = 0 then none else some (ssQuantile data 0.9)
  , p99 := if data.length = 0 then none else some (ssQuantile data 0.99)
  , p100 := if data.length = 0 then none else some (ssQuantile data 1)
  , mean := if data.length = 0 then none else some (ssMean data)
  , sd := some (if data.length = 0 then 0 else ssStandardDeviation data) }

/-! ## Records and the normalization pipeline (the onChange handler) -/

/-- The optional vitals block of a raw record; each field may be absent. -/
structure Spo2Summary where
  averageHR : Option ℚ
  averageSPO2 : Option ℚ
  lowestSPO2 : Option ℚ
deriving DecidableEq

/-- A decoded sleep record as the pipeline reads it.  calendarDate is the
epoch ordinal the yyyy-MM-dd string denotes (the pipeline only compares and
parses it, so the string is abstracted to its day number). -/
structure RawRecord where
  calendarDate : Int
  deepSleepSeconds : Option ℚ
  lightSleepSeconds : Option ℚ
  remSleepSeconds : Option ℚ
  awakeSleepSeconds : Option ℚ
  unmeasurableSeconds : Option ℚ
  spo2SleepSummary : Option Spo2Summary
deriving DecidableEq

/-- A raw record enriched with the derived total and percent fields
(the first map of the pipeline: the spread of x plus the new fields). -/
structure EnrichedRecord where
  calendarDate : Int
  deepSleepSeconds : Option ℚ
  lightSleepSeconds : Option ℚ
  remSleepSeconds : Option ℚ
  awakeSleepSeconds : Option ℚ
  unmeasurableSeconds : Option ℚ
  spo2SleepSummary : Option Spo2Summary
  totalSleepSeconds : ℚ
  deepSleepPercent : ℚ
  lightSleepPercent : ℚ
  remSleepPercent : ℚ
  awakeSleepPercent : ℚ
deriving DecidableEq

/-- An enriched record with the parsed calendarDateTime attached (the last
map of the pipeline).  Parsing yyyy-MM-dd with no offset maps the date
string to its day ordinal, which under our abstraction is calendarDate. -/
structure NormalizedRecord extends EnrichedRecord where
  calendarDateTime : Int
deriving DecidableEq

/-- The stage-duration total d + l + r + a, missing fields read as 0
(the JS expression x?.deepSleepSeconds || 0 and its three siblings). -/
def rawTotal (x : RawRecord) : ℚ :=
  x.deepSleepSeconds.getD 0 + x.lightSleepSeconds.getD 0 +
    x.remSleepSeconds.getD 0 + x.awakeSleepSeconds.getD 0

/-- The first map of the pipeline: spread the raw record and attach
totalSleepSeconds and the four percent fields stage * (100 / total).
When total = 0 the JS percent values are NaN and the rational ones are 0;
either way the record is removed by the very next filter. -/
def enrich (x : RawRecord) : EnrichedRecord :=
  let d := x.deepSleepSeconds.getD 0
  let l := x.lightSleepSeconds.getD 0
  let r := x.remSleepSeconds.getD 0
  let a := x.awakeSleepSeconds.getD 0
  let total := d + l + r + a
  let pF := 100 / total
  { calendarDate := x.calendarDate
  , deepSleepSeconds := x.deepSleepSeconds
  , lightSleepSeconds := x.lightSleepSeconds
  , remSleepSeconds := x.remSleepSeconds
  , awakeSleepSeconds := x.awakeSleepSeconds
  , unmeasurableSeconds := x.unmeasurableSeconds
  , spo2SleepSummary := x.spo2SleepSummary
  , totalSleepSeconds := total
  , deepSleepPercent := d * pF
  , lightSleepPercent := l * pF
  , remSleepPercent := r * pF
  , awakeSleepPercent := a * pF }

/-- JS loose equality of a possibly-undefined number with 0, as the filter
x.unmeasurableSeconds == 0 evaluates it: undefined == 0 is false, so an
absent field fails the filter. -/
def jsEqZero (o : Option ℚ) : Bool :=
  match o with
  | none => false
  | some v => v == 0

/-- The whole normalization pipeline of the onChange handler: enrich, keep
totalSleepSeconds > 0, keep unmeasurableSeconds == 0, stable-sort ascending
by calendar date (toSorted with the a - b comparator; any stable sort is
the same function, here insertion sort), then attach calendarDateTime. -/
def normalizeRecords (l : List RawRecord) : List NormalizedRecord :=
  (List.insertionSort (fun a b => a.calendarDate ≤ b.calendarDate)
      (((l.map enrich).filter (fun x => decide (0 < x.totalSleepSeconds))).filter
        (fun x => jsEqZero x.unmeasurableSeconds))).map
    (fun x => { toEnrichedRecord := x, calendarDateTime := x.calendarDate })

/-! ## Insertion-ordered key list (Object.groupBy insertion order, and the
membership check of the expectedDates walk) -/

/-- Append a key if it is not already present, keeping first-occurrence
order (the res.includes check of expectedDates, and the insertion order of
Object.groupBy keys). -/
def insertKey {κ : Type} [DecidableEq κ] (acc : List κ) (k : κ) : List κ :=
  if k ∈ acc then acc else acc ++ [k]

/-- The distinct values of a list in first-occurrence order. -/
def firstOccurKeys {κ : Type} [DecidableEq κ] (l : List κ) : List κ :=
  l.foldl insertKey []

/-! ## Grouping engine (groupData of the source) -/

/-- The metrics a Bucket carries statistics for: the three vitals paths and
the five percent paths of the source. -/
inductive Metric where
  | averageHR
  | averageSPO2
  | lowestSPO2
  | totalSleepSeconds
  | deepSleepPercent
  | lightSleepPercent
  | remSleepPercent
  | awakeSleepPercent
deriving DecidableEq

/-- Reading one metric off a normalized record, as the grouper maps it:
the vitals come from the optional spo2SleepSummary block (undefined when
the block or the field is missing), the percent paths are plain fields. -/
def metricValue (m : Metric) (x : NormalizedRecord) : Option ℚ :=
  match m with
  | .averageHR => x.spo2SleepSummary.bind (fun s => s.averageHR)
  | .averageSPO2 => x.spo2SleepSummary.bind (fun s => s.averageSPO2)
  | .lowestSPO2 => x.spo2SleepSummary.bind (fun s => s.lowestSPO2)
  | .totalSleepSeconds => some x.totalSleepSeconds
  | .deepSleepPercent => some x.deepSleepPercent
  | .lightSleepPercent => some x.lightSleepPercent
  | .remSleepPercent => some x.remSleepPercent
  | .awakeSleepPercent => some x.awakeSleepPercent

/-- The sentinel filter .filter((x) => x >= 0): an undefined value fails
the comparison, a negative value is a sentinel; only values >= 0 remain. -/
def sentinelFilter (l : List (Option ℚ)) : List ℚ :=
  l.filterMap (fun o =>
    match o with
    | some v => if 0 ≤ v then some v else none
    | none => none)

/-- Minimum of the calendarDateTime values of a group (Math.min over the
member dates); groups produced by grouping are never empty, so the junk
value for the empty list is unreachable. -/
def listMinimum (l : List Int) : Int :=
  match l with
  | [] => 0
  | a :: t => t.foldl min a

/-- Maximum of the calendarDateTime values of a group (Math.max). -/
def listMaximum (l : List Int) : Int :=
  match l with
  | [] => 0
  | a :: t => t.foldl max a

/-- One value of the grouped mapping: the bucket key, the date range of its
members, the member records, and one StatsDescriptor per tracked metric,
each over the sentinel-filtered member values of that metric. -/
structure Bucket where
  key : String
  minDateTime : Int
  maxDateTime : Int
  data : List NormalizedRecord
  averageHR : StatsDescriptor
  averageSPO2 : StatsDescriptor
  lowestSPO2 : StatsDescriptor
  totalSleepSeconds : StatsDescriptor
  deepSleepPercent : StatsDescriptor
  lightSleepPercent : StatsDescriptor
  remSleepPercent : StatsDescriptor
  awakeSleepPercent : StatsDescriptor

/-- The StatsDescriptor a bucket holds for a metric (the JS property access
bucket[metricKey]). -/
def Bucket.statOf (b : Bucket) : Metric → StatsDescriptor
  | .averageHR => b.averageHR
  | .averageSPO2 => b.averageSPO2
  | .lowestSPO2 => b.lowestSPO2
  | .totalSleepSeconds => b.totalSleepSeconds
  | .deepSleepPercent => b.deepSleepPercent
  | .lightSleepPercent => b.lightSleepPercent
  | .remSleepPercent => b.remSleepPercent
  | .awakeSleepPercent => b.awakeSleepPercent

/-- The bucket groupData builds for one key over the input list. -/
noncomputable def mkBucket (data : List NormalizedRecord) (groupFn : Int → String)
    (key : String) : Bucket :=
  let group := data.filter (fun x => decide (groupFn x.calendarDateTime = key))
  { key := key
  , minDateTime := listMinimum (group.map (fun x => x.calendarDateTime))
  , maxDateTime := listMaximum (group.map (fun x => x.calendarDateTime))
  , data := group
  , averageHR := makeStats (sentinelFilter (group.map (metricValue .averageHR)))
  , averageSPO2 := makeStats (sentinelFilter (group.map (metricValue .averageSPO2)))
  , lowestSPO2 := makeStats (sentinelFilter (group.map (metricValue .lowestSPO2)))
  , totalSleepSeconds :=
      makeStats (sentinelFilter (group.map (metricValue .totalSleepSeconds)))
  , deepSleepPercent :=
      makeStats (sentinelFilter (group.map (metricValue .deepSleepPercent)))
  , lightSleepPercent :=
      makeStats (sentinelFilter (group.map (metricValue .lightSleepPercent)))
  , remSleepPercent :=
      makeStats (sentinelFilter (group.map (metricValue .remSleepPercent)))
  , awakeSleepPercent :=
      makeStats (sentinelFilter (group.map (metricValue .awakeSleepPercent))) }

/-- Embeds groupData of the source: Object.groupBy(data, x => groupFn(x.calendarDateTime))
followed by the reduce that attaches per-metric statistics.  The JS object
is modelled as an association list; its keys are the distinct keys of the
input in insertion order, each paired with the bucket over the members
carrying that key. -/
noncomputable def groupData (data : List NormalizedRecord) (groupFn : Int → String) :
    List (String × Bucket) :=
  (firstOccurKeys (data.map (fun x => groupFn x.calendarDateTime))).map
    (fun key => (key, mkBucket data groupFn key))

/-! ## Range enumerator (expectedDates of the source) -/

/-- Embeds expectedDates of the source: walk day by day from start to stop
inclusive, appending the key of each day unless it is already present.
The recursion parameter names the end date stop because end is reserved.
The key type is any type with decidable equality; the source uses strings
with string equality. -/
def expectedDates {κ : Type} [DecidableEq κ] (start stop : Int) (f : Int → κ)
    (res : List κ) : List κ :=
  if start > stop then res
  else
    let groupKey := f start
    if groupKey ∈ res then expectedDates (start + 1) stop f res
    else expectedDates (start + 1) stop f (res ++ [groupKey])
termination_by (stop + 1 - start).toNat
decreasing_by all_goals omega

/-- The days of the inclusive interval, in order: the reference list the
day-by-day walk of expectedDates visits. -/
def daysList (start stop : Int) : List Int :=
  if start > stop then [] else start :: daysList (start + 1) stop
termination_by (stop + 1 - start).toNat
decreasing_by omega

/-! ## Series assembler (seriesData of the source) -/

/-- One chart series: its metric label and one value per enumerated key
(the type tag of the JS object is presentation only and is not modelled). -/
structure Series where
  label : Metric
  data : List (Option ℚ)
deriving DecidableEq

/-- The metric selection of the source: spo2Paths followed by
percentPaths.slice(1), dropping totalSleepSeconds. -/
def allMetrics : List Metric :=
  [.averageHR, .averageSPO2, .lowestSPO2,
   .deepSleepPercent, .lightSleepPercent, .remSleepPercent, .awakeSleepPercent]

/-- Embeds seriesData of the source, with the mapped metric list as a
parameter (the source maps the fixed allMetrics list): for each metric one
series whose data is, per enumerated key, the optional chain
groupedData[key]?.[metricKey]?.p50 - the p50 field when the key has a
bucket, undefined when it does not. -/
def seriesData (metrics : List Metric) (rangeKeys : List String)
    (grouped : List (String × Bucket)) : List Series :=
  metrics.map (fun metricKey =>
    { label := metricKey
    , data := rangeKeys.map (fun key =>
        match grouped.lookup key with
        | some b => (b.statOf metricKey).p50
        | none => none) })

/-! ## Concrete sample inputs used by the witness theorems -/

/-- A raw record with measured stages and unmeasurableSeconds present as 0. -/
def sampleRaw : RawRecord :=
  { calendarDate := 0
  , deepSleepSeconds := some 100
  , lightSleepSeconds := some 200
  , remSleepSeconds := some 50
  , awakeSleepSeconds := some 10
  , unmeasurableSeconds := some 0
  , spo2SleepSummary := none }

/-- The normalized record the pipeline produces from sampleRaw. -/
def sampleNorm : NormalizedRecord :=
  { toEnrichedRecord := enrich sampleRaw, calendarDateTime := 0 }

/-- A raw record with positive stages whose unmeasurableSeconds is absent. -/
def sampleRawAbsent : RawRecord :=
  { calendarDate := 0
  , deepSleepSeconds := some 100
  , lightSleepSeconds := some 200
  , remSleepSeconds := some 50
  , awakeSleepSeconds := some 10
  , unmeasurableSeconds := none
  , spo2SleepSummary := none }

/-- The series the assembler builds for one metric over two keys with no
buckets: a gap (none) at each key. -/
def sampleSeries : Series :=
  { label := .averageHR, data := [none, none] }

/-! ## Helper lemmas -/

theorem mem_insertKey {κ : Type} [DecidableEq κ] (acc : List κ) (k a : κ) :
    a ∈ insertKey acc k ↔ a ∈ acc ∨ a = k := by
  by_cases h : k ∈ acc
  · simp only [insertKey, if_pos h]
    exact ⟨Or.inl, fun hc => hc.elim id (fun e => e ▸ h)⟩
  · simp [insertKey, if_neg h]

theorem nodup_insertKey {κ : Type} [DecidableEq κ] (acc : List κ) (k : κ)
    (h : acc.Nodup) : (insertKey acc k).Nodup := by
  by_cases hk : k ∈ acc
  · simpa only [insertKey, if_pos hk] using h
  · simp only [insertKey, if_neg hk]
    simp [List.nodup_append, h, hk]

theorem mem_foldl_insertKey {κ : Type} [DecidableEq κ] (l : List κ) :
    ∀ (res : List κ) (a : κ), a ∈ l.foldl insertKey res ↔ a ∈ res ∨ a ∈ l := by
  induction l with
  | nil => simp
  | cons b t ih =>
    intro res a
    rw [List.foldl_cons, ih, mem_insertKey]
    simp only [List.mem_cons]
    tauto

theorem nodup_foldl_insertKey {κ : Type} [DecidableEq κ] (l : List κ) :
    ∀ (res : List κ), res.Nodup → (l.foldl insertKey res).Nodup := by
  induction l with
  | nil => intro res h; exact h
  | cons b t ih =>
    intro res h
    rw [List.foldl_cons]
    exact ih _ (nodup_insertKey _ _ h)

theorem mem_firstOccurKeys {κ : Type} [DecidableEq κ] (l : List κ) (a : κ) :
    a ∈ firstOccurKeys l ↔ a ∈ l := by
  simp [firstOccurKeys, mem_foldl_insertKey]

theorem nodup_firstOccurKeys {κ : Type} [DecidableEq κ] (l : List κ) :
    (firstOccurKeys l).Nodup :=
  nodup_foldl_insertKey l [] List.nodup_nil

theorem expectedDates_eq_foldl {κ : Type} [DecidableEq κ] (f : Int → κ) :
    ∀ (n : ℕ) (start stop : Int), (stop + 1 - start).toNat = n →
      ∀ (res : List κ),
        expectedDates start stop f res =
          (daysList start stop).foldl (fun acc d => insertKey acc (f d)) res := by
  intro n
  induction n with
  | zero =>
    intro start stop hn res
    have h : start > stop := by omega
    rw [expectedDates, daysList, if_pos h, if_pos h]
    rfl
  | succ n ih =>
    intro start stop hn res
    have h : ¬ start > stop := by omega
    rw [expectedDates, daysList, if_neg h, if_neg h, List.foldl_cons]
    have hn1 : (stop + 1 - (start + 1)).toNat = n := by omega
    by_cases hk : f start ∈ res
    · rw [if_pos hk, ih (start + 1) stop hn1 res]
      simp [insertKey, hk]
    · rw [if_neg hk, ih (start + 1) stop hn1 (res ++ [f start])]
      simp [insertKey, hk]

theorem daysList_self (start : Int) : daysList start start = [start] := by
  rw [daysList, if_neg (by omega), daysList, if_pos (by omega)]

theorem flatten_filter_perm {α κ : Type} [DecidableEq κ] (g : α → κ) :
    ∀ (keys : List κ), keys.Nodup → ∀ (l : List α), (∀ x ∈ l, g x ∈ keys) →
      List.Perm ((keys.map (fun k => l.filter (fun x => decide (g x = k)))).flatten) l := by
  intro keys
  induction keys with
  | nil =>
    intro _ l hcov
    cases l with
    | nil => simp
    | cons a t => exact absurd (hcov a (by simp)) (by simp)
  | cons k ks ih =>
    intro hnd l hcov
    obtain ⟨hk, hnd2⟩ := List.nodup_cons.mp hnd
    simp only [List.map_cons, List.flatten_cons]
    have hstep : ∀ k2 ∈ ks,
        l.filter (fun x => decide (g x = k2)) =
          (l.filter (fun x => !decide (g x = k))).filter
            (fun x => decide (g x = k2)) := by
      intro k2 hk2
      rw [List.filter_filter]
      apply List.filter_congr
      intro x _
      have hk2k : k2 ≠ k := fun e => hk (e ▸ hk2)
      by_cases hgx : g x = k2
      · simp [hgx, hk2k]
      · simp [hgx]
    have hmap : ks.map (fun k2 => l.filter (fun x => decide (g x = k2))) =
        ks.map (fun k2 =>
          (l.filter (fun x => !decide (g x = k))).filter
            (fun x => decide (g x = k2))) :=
      List.map_congr_left hstep
    rw [hmap]
    have hcov2 : ∀ x ∈ l.filter (fun x => !decide (g x = k)), g x ∈ ks := by
      intro x hx
      obtain ⟨hxl, hne⟩ := List.mem_filter.mp hx
      have hmem := hcov x hxl
      simp only [Bool.not_eq_true', decide_eq_false_iff_not] at hne
      rcases List.mem_cons.mp hmem with he | hm
      · exact absurd he hne
      · exact hm
    exact List.Perm.trans
      (List.Perm.append_left _ (ih hnd2 _ hcov2))
      (List.filter_append_perm _ l)

/-! ## Claim theorems -/

/-- C1: at a date in the last ISO week-1 overlap of a year (Dec 31, 2019
lies in ISO week 1 of week-year 2020) the week bucket key of the source is
built from the calendar year, "2019-w-1", not from the ISO week-year as the
spec requires ("2020-w-1"): the claim fails on the code.  The calendar-year
key moreover collides with the key of the true week 1 of January 2019. -/
theorem week_key_uses_calendar_year_at_boundary :
    groupers.week ⟨2019, 12, 31⟩ = "2019-w-1" ∧
    LDate.weekYear ⟨2019, 12, 31⟩ = 2020 ∧
    specWeekKey ⟨2019, 12, 31⟩ = "2020-w-1" ∧
    groupers.week ⟨2019, 12, 31⟩ ≠ specWeekKey ⟨2019, 12, 31⟩ := by
  refine ⟨?_, ?_, ?_, ?_⟩ <;> decide

theorem ssQuantile_singleton (x p : ℚ) (h0 : 0 ≤ p) (h1 : p ≤ 1) :
    ssQuantile [x] p = x := by
  have hs : List.insertionSort (· ≤ ·) [x] = [x] := rfl
  unfold ssQuantile
  rw [hs]
  unfold ssQuantileSorted
  simp only [List.length_singleton, Nat.cast_one, one_mul]
  rw [if_neg (by norm_num)]
  by_cases hp1 : p = 1
  · rw [if_pos hp1]; rfl
  rw [if_neg hp1]
  by_cases hp0 : p = 0
  · rw [if_pos hp0]; rfl
  rw [if_neg hp0]
  have hp0l : 0 < p := lt_of_le_of_ne h0 (Ne.symm hp0)
  have hp1l : p < 1 := lt_of_le_of_ne h1 hp1
  by_cases hden : p.den = 1
  · exfalso
    have hnum : (p.num : ℚ) = p := Rat.coe_int_num_of_den_eq_one hden
    have h4 : 0 < p.num := by exact_mod_cast hnum ▸ hp0l
    have h5 : p.num < 1 := by exact_mod_cast hnum ▸ hp1l
    omega
  · rw [if_pos hden]
    have hceil : ⌈p⌉ = 1 := by
      rw [Int.ceil_eq_iff]
      constructor
      · push_cast; linarith
      · push_cast; linarith
    rw [hceil]
    norm_num

/-- C2 (amended): for a one-value sample the nine percentile fields and the
mean all equal the value, and sd is 0 (the library returns 0 for a
one-element sample), not the absent marker the claim requires. -/
theorem makeStats_single_value (x : ℚ) :
    makeStats [x] =
      { p0 := some x, p1 := some x, p10 := some x, p25 := some x
      , p50 := some x, p75 := some x, p90 := some x, p99 := some x
      , p100 := some x, mean := some x, sd := some 0 } := by
  have hm : ssMean [x] = x := by simp [ssMean]
  have hsd : ssStandardDeviation [x] = 0 := by simp [ssStandardDeviation]
  unfold makeStats
  simp only [List.length_singleton, if_neg one_ne_zero]
  rw [ssQuantile_singleton x 0 le_rfl zero_le_one,
    ssQuantile_singleton x 0.01 (by norm_num) (by norm_num),
    ssQuantile_singleton x 0.1 (by norm_num) (by norm_num),
    ssQuantile_singleton x 0.25 (by norm_num) (by norm_num),
    ssQuantile_singleton x 0.5 (by norm_num) (by norm_num),
    ssQuantile_singleton x 0.75 (by norm_num) (by norm_num),
    ssQuantile_singleton x 0.9 (by norm_num) (by norm_num),
    ssQuantile_singleton x 0.99 (by norm_num) (by norm_num),
    ssQuantile_singleton x 1 zero_le_one le_rfl, hm, hsd]

/-- C2 counterexample: on the one-value sample [5] the sd field the source
computes is 0, a present number, not the absent marker. -/
theorem makeStats_single_sd_not_absent :
    (makeStats [(5 : ℚ)]).sd = some 0 ∧ (makeStats [(5 : ℚ)]).sd ≠ none := by
  constructor
  · rfl
  · simp [makeStats, ssStandardDeviation]

/-- C3 (amended): on the empty sample every percentile field and the mean
are the absent marker (data[0] of the empty array is undefined) and no
error is raised, but sd is 0, a present number, not the absent marker. -/
theorem makeStats_empty_sample :
    makeStats ([] : List ℚ) =
      { p0 := none, p1 := none, p10 := none, p25 := none
      , p50 := none, p75 := none, p90 := none, p99 := none
      , p100 := none, mean := none, sd := some 0 } := rfl

/-- C3 counterexample: on the empty sample the sd field is 0, a present
number distinct from the absent marker the claim requires. -/
theorem makeStats_empty_sd_not_absent :
    (makeStats ([] : List ℚ)).sd = some 0 ∧
      (makeStats ([] : List ℚ)).sd ≠ none := by
  constructor
  · rfl
  · simp [makeStats]

/-- C4: every series the assembler produces has one entry per enumerated
key, and that entry is the p50 field of the StatsDescriptor the bucket of
the key holds for the series metric when the key has a bucket, and the
absent marker (never 0) when it does not.  The metric selection is the
mapped list, so the statement covers every selection size, the empty one
included. -/
theorem seriesData_aligned (metrics : List Metric) (rangeKeys : List String)
    (grouped : List (String × Bucket)) (s : Series)
    (hs : s ∈ seriesData metrics rangeKeys grouped) :
    s.data.length = rangeKeys.length ∧
    s.data = rangeKeys.map (fun key =>
      match grouped.lookup key with
      | some b => (b.statOf s.label).p50
      | none => none) := by
  obtain ⟨m, _, rfl⟩ := List.mem_map.mp hs
  exact ⟨by simp, rfl⟩

/-- Witness for C4: one selected metric over two enumerated keys with no
buckets yields the two-gap series. -/
theorem seriesData_aligned_witness :
    (sampleSeries ∈ seriesData [Metric.averageHR] ["a", "b"] []) ∧
    (sampleSeries.data.length = (["a", "b"] : List String).length ∧
      sampleSeries.data = (["a", "b"] : List String).map (fun key =>
        match ([] : List (String × Bucket)).lookup key with
        | some b => (b.statOf sampleSeries.label).p50
        | none => none)) :=
  ⟨by decide, seriesData_aligned [Metric.averageHR] ["a", "b"] [] sampleSeries
    (by decide)⟩

/-- C5: with start at most stop the walk returns exactly the distinct keys
of the days of the inclusive interval, without duplicates, in
first-occurrence order along the day-by-day walk, and a one-day interval
yields the singleton list of the key of its day. -/
theorem expectedDates_enumerates {κ : Type} [DecidableEq κ] (start stop : Int)
    (f : Int → κ) (h : start ≤ stop) :
    expectedDates start stop f [] = firstOccurKeys ((daysList start stop).map f) ∧
    (expectedDates start stop f []).Nodup ∧
    (∀ k, k ∈ expectedDates start stop f [] ↔ k ∈ (daysList start stop).map f) ∧
    expectedDates start start f [] = [f start] := by
  have heq : ∀ s t : Int,
      expectedDates s t f [] = firstOccurKeys ((daysList s t).map f) := by
    intro s t
    rw [expectedDates_eq_foldl f ((t + 1 - s).toNat) s t rfl,
      firstOccurKeys, List.foldl_map]
  refine ⟨heq start stop, ?_, ?_, ?_⟩
  · rw [heq]; exact nodup_firstOccurKeys _
  · intro k; rw [heq, mem_firstOccurKeys]
  · rw [heq start start, daysList_self]
    simp [firstOccurKeys, insertKey]

/-- Witness for C5 at the interval 0..1 with the identity key function. -/
theorem expectedDates_enumerates_witness :
    ((0 : Int) ≤ 1) ∧
    (expectedDates 0 1 (fun i => i) [] =
        firstOccurKeys ((daysList 0 1).map (fun i => i)) ∧
      (expectedDates 0 1 (fun i => i) []).Nodup ∧
      (∀ k, k ∈ expectedDates 0 1 (fun i => i) [] ↔
          k ∈ (daysList 0 1).map (fun i => i)) ∧
      expectedDates 0 0 (fun i => i) [] = [(0 : Int)]) :=
  ⟨by norm_num, expectedDates_enumerates 0 1 (fun i => i) (by norm_num)⟩

/-- C6: a reversed interval (start past stop) makes the walk return the
empty list at once; no error path exists. -/
theorem expectedDates_reversed_empty {κ : Type} [DecidableEq κ]
    (start stop : Int) (f : Int → κ) (h : start > stop) :
    expectedDates start stop f [] = [] := by
  rw [expectedDates, if_pos h]

/-- Witness for C6 at the reversed interval 1..0. -/
theorem expectedDates_reversed_empty_witness :
    ((1 : Int) > 0) ∧ expectedDates 1 0 (fun i => toString i) [] = [] :=
  ⟨by norm_num, expectedDates_reversed_empty 1 0 (fun i => toString i)
    (by norm_num)⟩

/-- C7: every record the pipeline outputs has positive total, has
unmeasurableSeconds present and equal to 0, and its four stage percent
fields sum to exactly 100 (the rational model has no rounding, so the
floating tolerance of the claim is met exactly); records with non-positive
total or non-zero unmeasurable duration never reach the output. -/
theorem normalized_percent_sum (l : List RawRecord) (x : NormalizedRecord)
    (hx : x ∈ normalizeRecords l) :
    0 < x.totalSleepSeconds ∧ x.unmeasurableSeconds = some 0 ∧
    x.deepSleepPercent + x.lightSleepPercent + x.remSleepPercent +
      x.awakeSleepPercent = 100 := by
  unfold normalizeRecords at hx
  obtain ⟨e, he, rfl⟩ := List.mem_map.mp hx
  rw [(List.perm_insertionSort _ _).mem_iff] at he
  obtain ⟨he2, hu⟩ := List.mem_filter.mp he
  obtain ⟨he3, ht⟩ := List.mem_filter.mp he2
  obtain ⟨r, _, rfl⟩ := List.mem_map.mp he3
  have htot : 0 < (enrich r).totalSleepSeconds := of_decide_eq_true ht
  have hun : (enrich r).unmeasurableSeconds = some 0 := by
    have hu2 : jsEqZero r.unmeasurableSeconds = true := hu
    cases hru : r.unmeasurableSeconds with
    | none => rw [hru] at hu2; simp [jsEqZero] at hu2
    | some v =>
      rw [hru] at hu2
      simp only [jsEqZero, beq_iff_eq] at hu2
      show r.unmeasurableSeconds = some 0
      rw [hru, hu2]
  refine ⟨htot, hun, ?_⟩
  set d := r.deepSleepSeconds.getD 0 with hd
  set lt := r.lightSleepSeconds.getD 0 with hlt
  set rm := r.remSleepSeconds.getD 0 with hrm
  set aw := r.awakeSleepSeconds.getD 0 with haw
  have htot2 : 0 < d + lt + rm + aw := htot
  have hne : d + lt + rm + aw ≠ 0 := ne_of_gt htot2
  show d * (100 / (d + lt + rm + aw)) + lt * (100 / (d + lt + rm + aw)) +
      rm * (100 / (d + lt + rm + aw)) + aw * (100 / (d + lt + rm + aw)) = 100
  field_simp
  ring

/-- Witness for C7: the pipeline applied to the single sample record. -/
theorem normalized_percent_sum_witness :
    (sampleNorm ∈ normalizeRecords [sampleRaw]) ∧
    (0 < sampleNorm.totalSleepSeconds ∧
      sampleNorm.unmeasurableSeconds = some 0 ∧
      sampleNorm.deepSleepPercent + sampleNorm.lightSleepPercent +
        sampleNorm.remSleepPercent + sampleNorm.awakeSleepPercent = 100) := by
  have h1 : decide (0 < (enrich sampleRaw).totalSleepSeconds) = true := by
    rw [decide_eq_true_eq]
    norm_num [enrich, sampleRaw]
  have h2 : jsEqZero (enrich sampleRaw).unmeasurableSeconds = true := by
    simp [jsEqZero, enrich, sampleRaw]
  have hmem : sampleNorm ∈ normalizeRecords [sampleRaw] := by
    unfold normalizeRecords
    simp only [List.map_cons, List.map_nil, List.filter_cons, List.filter_nil,
      h1, h2, if_true]
    exact List.mem_singleton.mpr rfl
  exact ⟨hmem, normalized_percent_sum [sampleRaw] sampleNorm hmem⟩

/-- C8: the buckets groupData builds partition the input: flattening the
member lists of all buckets is a permutation of the input (no record
duplicated or dropped), the bucket keys are pairwise distinct, and a key
has a bucket exactly when some input record carries it. -/
theorem groupData_partitions (l : List NormalizedRecord) (f : Int → String) :
    List.Perm (((groupData l f).map (fun p => p.2.data)).flatten) l ∧
    ((groupData l f).map Prod.fst).Nodup ∧
    (∀ k, k ∈ (groupData l f).map Prod.fst ↔
      k ∈ l.map (fun x => f x.calendarDateTime)) := by
  have hkeys : (groupData l f).map Prod.fst =
      firstOccurKeys (l.map (fun x => f x.calendarDateTime)) := by
    unfold groupData
    rw [List.map_map]
    exact List.map_id' _
  have hdata : (groupData l f).map (fun p => p.2.data) =
      (firstOccurKeys (l.map (fun x => f x.calendarDateTime))).map
        (fun k => l.filter (fun x => decide (f x.calendarDateTime = k))) := by
    unfold groupData
    rw [List.map_map]
    rfl
  refine ⟨?_, ?_, ?_⟩
  · rw [hdata]
    exact flatten_filter_perm (fun x => f x.calendarDateTime) _
      (nodup_firstOccurKeys _) l
      (fun x hx => (mem_firstOccurKeys _ _).mpr
        (List.mem_map_of_mem (fun y => f y.calendarDateTime) hx))
  · rw [hkeys]; exact nodup_firstOccurKeys _
  · intro k; rw [hkeys, mem_firstOccurKeys]

/-- C9: the grouping engine and the range enumerator are functions of their
arguments alone: equal inputs give equal grouped mappings and equal key
sequences (the embedding is pure, as the source functions read no state). -/
theorem engine_deterministic (d1 d2 : List NormalizedRecord)
    (f1 f2 : Int → String) (s1 s2 t1 t2 : Int) (g1 g2 : Int → String)
    (hd : d1 = d2) (hf : f1 = f2) (hs : s1 = s2) (ht : t1 = t2)
    (hg : g1 = g2) :
    groupData d1 f1 = groupData d2 f2 ∧
      expectedDates s1 t1 g1 [] = expectedDates s2 t2 g2 [] := by
  subst hd; subst hf; subst hs; subst ht; subst hg
  exact ⟨rfl, rfl⟩

/-- Witness for C9 at concrete inputs. -/
theorem engine_deterministic_witness :
    groupData [] (fun _ => "all") = groupData [] (fun _ => "all") ∧
      expectedDates 0 1 (fun _ => "all") [] =
        expectedDates 0 1 (fun _ => "all") [] :=
  engine_deterministic [] [] (fun _ => "all") (fun _ => "all") 0 0 1 1
    (fun _ => "all") (fun _ => "all") rfl rfl rfl rfl rfl

/-- C10: a raw record whose unmeasurableSeconds field is absent is dropped
by the pipeline even when its stage durations are positive, because the
filter keeps only records whose unmeasurableSeconds compares loosely equal
to 0 and undefined == 0 is false: removing such a record from the batch
leaves the output unchanged. -/
theorem absent_unmeasurable_excluded (l1 l2 : List RawRecord) (r : RawRecord)
    (hu : r.unmeasurableSeconds = none) (hp : 0 < rawTotal r) :
    normalizeRecords (l1 ++ r :: l2) = normalizeRecords (l1 ++ l2) := by
  have h2 : jsEqZero (enrich r).unmeasurableSeconds = false := by
    have he : (enrich r).unmeasurableSeconds = none := hu
    rw [he]
    rfl
  have hfilters : (((l1 ++ r :: l2).map enrich).filter
        (fun x => decide (0 < x.totalSleepSeconds))).filter
        (fun x => jsEqZero x.unmeasurableSeconds) =
      (((l1 ++ l2).map enrich).filter
        (fun x => decide (0 < x.totalSleepSeconds))).filter
        (fun x => jsEqZero x.unmeasurableSeconds) := by
    by_cases h1 : (0 : ℚ) < (enrich r).totalSleepSeconds
    · simp only [List.map_append, List.map_cons, List.filter_append,
        List.filter_cons, decide_eq_true h1, if_true, h2, Bool.false_eq_true,
        if_false]
    · simp only [List.map_append, List.map_cons, List.filter_append,
        List.filter_cons, decide_eq_false h1, Bool.false_eq_true, if_false]
  unfold normalizeRecords
  rw [hfilters]

/-- Witness for C10: a single-record batch whose record lacks the
unmeasurableSeconds field normalizes to the same output as the empty batch. -/
theorem absent_unmeasurable_excluded_witness :
    (sampleRawAbsent.unmeasurableSeconds = none) ∧
    (0 < rawTotal sampleRawAbsent) ∧
    normalizeRecords [sampleRawAbsent] = normalizeRecords [] :=
  ⟨rfl, by norm_num [rawTotal, sampleRawAbsent],
    absent_unmeasurable_excluded [] [] sampleRawAbsent rfl
      (by norm_num [rawTotal, sampleRawAbsent])⟩

end GarminSleep
